import Mathlib

/-!
Verification of the launch-integrity core of the eos-bios boot tool.

The Go sources consist of a `main` driver and a launch-file loader. The
loader reads and unmarshals a launch manifest, validates the Bitcoin block
height field, hashes the opening-balances snapshot with SHA-256, compares it
to the declared hash, and then hashes each of the four system contracts
(code file, a single ":" delimiter byte, ABI file) and compares each digest
to the declared one. The embedding below mirrors those functions over an
explicit file-system map, records the observable effects (file hashing and
printed digests) as an event trace, and models the `main` driver as a
linear trace of top-level steps so that claims about what happens before
any network action can be stated and proved.
-/

set_option maxRecDepth 20000

namespace EosBios

/-- Byte sequences as lists of naturals; arithmetic that would wrap in the
machine reduces modulo 256 or 2 ^ 32 explicitly. -/
abbrev Bytes := List Nat

namespace Sha256

/-- Truncate to a 32-bit word, as every Go uint32 operation does. -/
def w32 (n : Nat) : Nat := n % 4294967296

/-- Right rotation of a 32-bit word by `k` bits. -/
def rotw (k n : Nat) : Nat := w32 ((n >>> k) ||| (n <<< (32 - k)))

/-- Bitwise complement within 32 bits. -/
def bnot32 (n : Nat) : Nat := n ^^^ 4294967295

/-- The SHA-256 choose function. -/
def choose (x y z : Nat) : Nat := (x &&& y) ^^^ (bnot32 x &&& z)

/-- The SHA-256 majority function. -/
def majority (x y z : Nat) : Nat := (x &&& y) ^^^ (x &&& z) ^^^ (y &&& z)

/-- Big sigma 0. -/
def sumBig0 (x : Nat) : Nat := rotw 2 x ^^^ rotw 13 x ^^^ rotw 22 x

/-- Big sigma 1. -/
def sumBig1 (x : Nat) : Nat := rotw 6 x ^^^ rotw 11 x ^^^ rotw 25 x

/-- Small sigma 0. -/
def sigSmall0 (x : Nat) : Nat := rotw 7 x ^^^ rotw 18 x ^^^ (x >>> 3)

/-- Small sigma 1. -/
def sigSmall1 (x : Nat) : Nat := rotw 17 x ^^^ rotw 19 x ^^^ (x >>> 10)

/-- The 64 round constants of FIPS 180-4, written in decimal. -/
def K : List Nat :=
  [1116352408, 1899447441, 3049323471, 3921009573, 961987163,
   1508970993, 2453635748, 2870763221, 3624381080, 310598401,
   607225278, 1426881987, 1925078388, 2162078206, 2614888103,
   3248222580, 3835390401, 4022224774, 264347078, 604807628,
   770255983, 1249150122, 1555081692, 1996064986, 2554220882,
   2821834349, 2952996808, 3210313671, 3336571891, 3584528711,
   113926993, 338241895, 666307205, 773529912, 1294757372,
   1396182291, 1695183700, 1986661051, 2177026350, 2456956037,
   2730485921, 2820302411, 3259730800, 3345764771, 3516065817,
   3600352804, 4094571909, 275423344, 430227734, 506948616,
   659060556, 883997877, 958139571, 1322822218, 1537002063,
   1747873779, 1955562222, 2024104815, 2227730452, 2361852424,
   2428436474, 2756734187, 3204031479, 3329325298]

/-- One extension step of the message schedule: append word 16, 17, ... -/
def scheduleStep (w : List Nat) : List Nat :=
  w ++ [w32 (sigSmall1 (w.getD (w.length - 2) 0) + w.getD (w.length - 7) 0 +
        sigSmall0 (w.getD (w.length - 15) 0) + w.getD (w.length - 16) 0)]

/-- Iterate the schedule extension. -/
def scheduleAux : Nat → List Nat → List Nat
  | 0, w => w
  | n + 1, w => scheduleAux n (scheduleStep w)

/-- Extend 16 block words to the 64 schedule words. -/
def schedule (block : List Nat) : List Nat := scheduleAux 48 block

/-- The eight 32-bit working variables of the compression function. -/
structure St where
  a : Nat
  b : Nat
  c : Nat
  d : Nat
  e : Nat
  f : Nat
  g : Nat
  h : Nat

/-- One compression round, consuming an already combined constant plus
schedule word. -/
def round (s : St) (kw : Nat) : St :=
  let t1 := w32 (s.h + sumBig1 s.e + choose s.e s.f s.g + kw)
  let t2 := w32 (sumBig0 s.a + majority s.a s.b s.c)
  ⟨w32 (t1 + t2), s.a, s.b, s.c, w32 (s.d + t1), s.e, s.f, s.g⟩

/-- Run all rounds over the combined constant-plus-schedule words. -/
def rounds : List Nat → St → St
  | [], s => s
  | kw :: rest, s => rounds rest (round s kw)

/-- Compress one 16-word block into the chaining state. -/
def compress (h0 : St) (block : List Nat) : St :=
  let kws := K.zipWith (fun k w => w32 (k + w)) (schedule block)
  let s := rounds kws h0
  ⟨w32 (h0.a + s.a), w32 (h0.b + s.b), w32 (h0.c + s.c), w32 (h0.d + s.d),
   w32 (h0.e + s.e), w32 (h0.f + s.f), w32 (h0.g + s.g), w32 (h0.h + s.h)⟩

/-- Group bytes into big-endian 32-bit words. -/
def toWords : Bytes → List Nat
  | a :: b :: c :: d :: rest => (((a * 256 + b) * 256 + c) * 256 + d) :: toWords rest
  | _ => []

/-- Big-endian 8-byte encoding of the bit length. -/
def be8 (n : Nat) : Bytes :=
  [(n >>> 56) % 256, (n >>> 48) % 256, (n >>> 40) % 256, (n >>> 32) % 256,
   (n >>> 24) % 256, (n >>> 16) % 256, (n >>> 8) % 256, n % 256]

/-- SHA-256 padding: a 0x80 byte, zeros to 56 mod 64, then the bit length. -/
def pad (msg : Bytes) : Bytes :=
  msg ++ [128] ++ List.replicate ((119 - msg.length % 64) % 64) 0 ++ be8 (8 * msg.length)

/-- Fold the compression function over successive 64-byte blocks. -/
def processAux : Nat → Bytes → St → St
  | 0, _, s => s
  | n + 1, bytes, s => processAux n (bytes.drop 64) (compress s (toWords (bytes.take 64)))

/-- The SHA-256 initial chaining value, in decimal. -/
def initSt : St :=
  ⟨1779033703, 3144134277, 1013904242, 2773480762,
   1359893119, 2600822924, 528734635, 1541459225⟩

/-- Big-endian 4-byte encoding of a 32-bit word. -/
def be4 (n : Nat) : Bytes := [(n >>> 24) % 256, (n >>> 16) % 256, (n >>> 8) % 256, n % 256]

/-- The 32-byte SHA-256 digest of a byte sequence. -/
def digestBytes (msg : Bytes) : Bytes :=
  let p := pad msg
  let s := processAux (p.length / 64) p initSt
  be4 s.a ++ be4 s.b ++ be4 s.c ++ be4 s.d ++ be4 s.e ++ be4 s.f ++ be4 s.g ++ be4 s.h

end Sha256

/-- Lower-case hex digit for a value below 16, matching the Go hex package. -/
def hexDigitChar (n : Nat) : Char := if n < 10 then Char.ofNat (48 + n) else Char.ofNat (87 + n)

/-- Two hex characters per byte, most significant nibble first. -/
def hexChars : Bytes → List Char
  | [] => []
  | b :: rest => hexDigitChar (b / 16) :: hexDigitChar (b % 16) :: hexChars rest

/-- The Go hex.EncodeToString: lower-case hex of a byte sequence. -/
def hexEncode (bs : Bytes) : String := ⟨hexChars bs⟩

/-- Hex-encoded SHA-256, the digest format both hashing helpers return. -/
def sha256hex (msg : Bytes) : String := hexEncode (Sha256.digestBytes msg)

/-- The local file system as seen through ioutil.ReadFile: a map from path
to contents, with `none` for a path whose read fails. -/
def FS : Type := String → Option Bytes

/-- The code and ABI paths of one contract, from the local configuration. -/
structure ContractLocation where
  codePath : String
  abiPath : String
deriving DecidableEq

/-- The four contract locations named in the local configuration. -/
structure ContractsConfig where
  bios : ContractLocation
  system : ContractLocation
  msig : ContractLocation
  token : ContractLocation
deriving DecidableEq

/-- The opening-balances section of the local configuration. -/
structure OpeningBalancesConfig where
  snapshotPath : String
deriving DecidableEq

/-- The producer section of the local configuration: the two endpoint
addresses main dials. -/
structure ProducerConfig where
  apiAddressURL : String
  walletAddressURL : String
deriving DecidableEq

/-- The local configuration, as consumed by the loader and by main. -/
structure Config where
  openingBalances : OpeningBalancesConfig
  contracts : ContractsConfig
  producer : ProducerConfig

/-- One producer definition of the launch manifest. The authority and key
fields are carried through unmodified, so they are kept as plain strings. -/
structure ProducerDef where
  accountName : String
  authorityOwner : String
  authorityActive : String
  initialBlockSigningPublicKey : String
  keybaseUser : String
  pgpPublicKey : String
  organizationName : String
  urls : List String
deriving DecidableEq

/-- The declared contract hashes of the launch manifest. -/
structure ContractHashes where
  bios : String
  system : String
  msig : String
  token : String
deriving DecidableEq

/-- The launch manifest, as unmarshalled from launch.yaml. -/
structure LaunchData where
  launchBitcoinBlockHeight : Int
  openingBalancesSnapshotHash : String
  contractHashes : ContractHashes
  producers : List ProducerDef
deriving DecidableEq

/-- A contract location paired with its declared hash. -/
structure contractCompare where
  location : ContractLocation
  hash : String
deriving DecidableEq

/-- Build a contractCompare from a location and a declared hash. -/
def newCC (loc : ContractLocation) (hash : String) : contractCompare := ⟨loc, hash⟩

/-- The errors loadLaunchFile and the hashing helpers can return, mirroring
the error values built in the Go code. A contract error carries exactly the
one contract name the Go format string interpolates. -/
inductive GoErr where
  | ioError (path : String)
  | unmarshalError
  | heightZero
  | snapshotMismatch
  | contractHashError (name : String) (inner : GoErr)
  | contractMismatch (name : String)
deriving DecidableEq

/-- Observable effects of a loader run: file reads performed through the
hashing helpers, and the digests printed to standard output. -/
inductive Event where
  | readLaunch (path : String)
  | hashedSnapshot (path : String)
  | printedHash (path : String) (digest : String)
  | hashedContract (name codePath abiPath : String)
  | printedContractHash (codePath abiPath : String) (digest : String)
deriving DecidableEq

/-- hashFile: read one file and return the hex SHA-256 of its bytes, or the
read error together with the empty string, exactly as the Go function
returns ("", err). -/
def hashFile (fs : FS) (filename : String) : String × Option GoErr :=
  match fs filename with
  | none => ("", some (GoErr.ioError filename))
  | some cnt => (sha256hex cnt, none)

/-- hashCodeFiles: read the code file, write it into the hash state, write
one ":" byte, read the ABI file, write it, and return the hex digest; any
read error aborts with ("", err). The hashed message is therefore the code
bytes, byte 58, then the ABI bytes. -/
def hashCodeFiles (fs : FS) (code abi : String) : String × Option GoErr :=
  match fs code with
  | none => ("", some (GoErr.ioError code))
  | some codeBytes =>
    match fs abi with
    | none => ("", some (GoErr.ioError abi))
    | some abiBytes => (sha256hex (codeBytes ++ [58] ++ abiBytes), none)

/-- The four named contract comparisons the loader iterates. Go ranges over
a map literal whose iteration order is unspecified; the embedding fixes the
literal order bios, system, msig, token. -/
def contractList (config : Config) (out : LaunchData) : List (String × contractCompare) :=
  [("bios", newCC config.contracts.bios out.contractHashes.bios),
   ("system", newCC config.contracts.system out.contractHashes.system),
   ("msig", newCC config.contracts.msig out.contractHashes.msig),
   ("token", newCC config.contracts.token out.contractHashes.token)]

/-- The contract loop of loadLaunchFile: hash each code and ABI pair, print
the digest, compare against the declared hash, and return at the first
hashing error or mismatch. Returns the error outcome and the event trace. -/
def checkContracts (fs : FS) : List (String × contractCompare) → Option GoErr × List Event
  | [] => (none, [])
  | (name, cmp) :: rest =>
    match hashCodeFiles fs cmp.location.codePath cmp.location.abiPath with
    | (_, some e) =>
      (some (GoErr.contractHashError name e),
       [Event.hashedContract name cmp.location.codePath cmp.location.abiPath])
    | (codeHash, none) =>
      let ev := [Event.hashedContract name cmp.location.codePath cmp.location.abiPath,
                 Event.printedContractHash cmp.location.codePath cmp.location.abiPath codeHash]
      if codeHash ≠ cmp.hash then (some (GoErr.contractMismatch name), ev)
      else
        match checkContracts fs rest with
        | (r, evs) => (r, ev ++ evs)

/-- loadLaunchFile: read the launch file, unmarshal it, reject a zero block
height, hash and print the snapshot digest, compare it to the declared
hash, then run the contract loop. The yamlUnmarshal collaborator is a
parameter, with `none` for an unmarshal error. The result mirrors the Go
pair (out, err) and is returned with the event trace. -/
def loadLaunchFile (fs : FS) (yamlUnmarshal : Bytes → Option LaunchData)
    (filename : String) (config : Config) :
    (Option LaunchData × Option GoErr) × List Event :=
  match fs filename with
  | none => ((none, some (GoErr.ioError filename)), [Event.readLaunch filename])
  | some cnt =>
    match yamlUnmarshal cnt with
    | none => ((none, some GoErr.unmarshalError), [Event.readLaunch filename])
    | some out =>
      if out.launchBitcoinBlockHeight = 0 then
        ((none, some GoErr.heightZero), [Event.readLaunch filename])
      else
        match hashFile fs config.openingBalances.snapshotPath with
        | (_, some e) =>
          ((none, some e),
           [Event.readLaunch filename,
            Event.hashedSnapshot config.openingBalances.snapshotPath])
        | (snapshotHash, none) =>
          let ev0 := [Event.readLaunch filename,
                      Event.hashedSnapshot config.openingBalances.snapshotPath,
                      Event.printedHash config.openingBalances.snapshotPath snapshotHash]
          if snapshotHash ≠ out.openingBalancesSnapshotHash then
            ((none, some GoErr.snapshotMismatch), ev0)
          else
            match checkContracts fs (contractList config out) with
            | (some e, evs) => ((none, some e), ev0 ++ evs)
            | (none, evs) => ((some out, none), ev0 ++ evs)

/-- The top-level steps of main, in program order. A fatal step models
log.Fatalln or log.Fatalf, which terminates the process; creating the two
eos clients, querying the wallet keys and running the BIOS sequence are the
network-facing steps. -/
inductive MainEvent where
  | loadedConfig
  | loadedLaunch
  | createdAPIClient (url : String)
  | createdWalletClient (url : String)
  | setSigner
  | queriedWalletKeys
  | loadedSnapshot
  | shuffledProducers
  | ranBios
  | fatal (msg : String)
deriving DecidableEq

/-- Inputs of one main run: the flag values, the file system, the external
collaborators (configuration loader, yaml unmarshaller) and the outcomes of
the steps whose implementations live outside these two source files. -/
structure MainParams where
  localConfig : String
  launchData : String
  fs : FS
  yamlUnmarshal : Bytes → Option LaunchData
  configResult : Option Config
  walletKeysOK : Bool
  snapshotOK : Bool
  shuffleOK : Bool
  runOK : Bool

/-- The trace of one main run, following main.go line by line: flag check,
LoadLocalConfig, loadLaunchFile, the two eos.New clients, SetSigner,
WalletPublicKeys, NewSnapshot, ShuffleProducers, bios.Run. Each log.Fatal
call ends the trace. -/
def mainRun (p : MainParams) : List MainEvent :=
  if p.localConfig = "" ∨ p.launchData = "" then
    [MainEvent.fatal "missing --launch-data or --local-config"]
  else
    match p.configResult with
    | none => [MainEvent.fatal "local config load error"]
    | some config =>
      match (loadLaunchFile p.fs p.yamlUnmarshal p.launchData config).1 with
      | (_, some _) => [MainEvent.loadedConfig, MainEvent.fatal "launch data error"]
      | (_, none) =>
        [MainEvent.loadedConfig, MainEvent.loadedLaunch,
         MainEvent.createdAPIClient config.producer.apiAddressURL,
         MainEvent.createdWalletClient config.producer.walletAddressURL,
         MainEvent.setSigner, MainEvent.queriedWalletKeys] ++
        if ¬ p.walletKeysOK then [MainEvent.fatal "Wallet node not accessible"]
        else
          [MainEvent.loadedSnapshot] ++
          if ¬ p.snapshotOK then [MainEvent.fatal "Failed loading snapshot csv"]
          else
            [MainEvent.shuffledProducers] ++
            if ¬ p.shuffleOK then [MainEvent.fatal "Failed shuffling"]
            else
              [MainEvent.ranBios] ++
              if ¬ p.runOK then [MainEvent.fatal "ERROR RUNNING BIOS"] else []

/-- The steps of main that touch the network: client creation against the
two endpoints, the wallet key query, and the BIOS run that submits
transactions. -/
def isNetworkEvent : MainEvent → Bool
  | MainEvent.createdAPIClient _ => true
  | MainEvent.createdWalletClient _ => true
  | MainEvent.queriedWalletKeys => true
  | MainEvent.ranBios => true
  | _ => false

/-! ## Concrete scenarios used by counterexamples and witnesses -/

/-- Two readable one-byte files with distinct contents. -/
def fsOrder : FS := fun p =>
  if p = "fa" then some [97] else if p = "fb" then some [98] else none

/-- Two readable files with distinct contents chosen so that the delimited
concatenation is the same byte string in both orders: one holds a single
":" byte and the other is empty. -/
def fsColl : FS := fun p =>
  if p = "fa" then some [58] else if p = "fb" then some [] else none

/-- A standard local configuration: snapshot at "s", every contract at the
code path "c" and ABI path "a". -/
def cfgStd : Config :=
  ⟨⟨"s"⟩, ⟨⟨"c", "a"⟩, ⟨"c", "a"⟩, ⟨"c", "a"⟩, ⟨"c", "a"⟩⟩, ⟨"api", "wallet"⟩⟩

/-- A file system with a one-byte launch file, snapshot [1], contract code
[2] and ABI [3], all readable. -/
def fsStd : FS := fun p =>
  if p = "launch.yaml" then some [0]
  else if p = "s" then some [1]
  else if p = "c" then some [2]
  else if p = "a" then some [3]
  else none

/-- The digest every contract of cfgStd computes under fsStd. -/
def digStd : String := sha256hex [2, 58, 3]

/-- A manifest whose bios and token hashes are both wrong while the
snapshot, system and msig hashes are right: the C1 scenario. -/
def ldTwoBad : LaunchData :=
  ⟨1, sha256hex [1], ⟨"declared-bios", digStd, digStd, "declared-token"⟩, []⟩

/-- A producer definition named alice with trivial metadata. -/
def pdAlice : ProducerDef := ⟨"alice", "", "", "", "", "", "", []⟩

/-- A manifest listing the same producer account name twice, with every
declared hash correct: the C3 scenario. -/
def ldDup : LaunchData :=
  ⟨1, sha256hex [1], ⟨digStd, digStd, digStd, digStd⟩, [pdAlice, pdAlice]⟩

/-- A manifest whose declared snapshot hash matches no file: the C2
scenario. -/
def ldSnapBad : LaunchData :=
  ⟨1, "not-the-snapshot-digest", ⟨digStd, digStd, digStd, digStd⟩, []⟩

/-- Unmarshaller returning the two-bad-contracts manifest. -/
def yamTwoBad : Bytes → Option LaunchData := fun _ => some ldTwoBad

/-- Unmarshaller returning the duplicate-producer manifest. -/
def yamDup : Bytes → Option LaunchData := fun _ => some ldDup

/-- Unmarshaller returning the bad-snapshot manifest. -/
def yamSnapBad : Bytes → Option LaunchData := fun _ => some ldSnapBad

/-- Main-run inputs for the bad-snapshot scenario, with every external
collaborator succeeding. -/
def pSnapBad : MainParams :=
  ⟨"local.yaml", "launch.yaml", fsStd, yamSnapBad, some cfgStd, true, true, true, true⟩

/-- Main-run inputs for the duplicate-producer scenario. -/
def pDup : MainParams :=
  ⟨"local.yaml", "launch.yaml", fsStd, yamDup, some cfgStd, true, true, true, true⟩

/-- A manifest with a zero Bitcoin block height: the C7 scenario. -/
def ldZero : LaunchData := ⟨0, "", ⟨"", "", "", ""⟩, []⟩

/-- Unmarshaller returning the zero-height manifest. -/
def yamZero : Bytes → Option LaunchData := fun _ => some ldZero

/-- Main-run inputs for the zero-height scenario. -/
def pZero : MainParams :=
  ⟨"local.yaml", "launch.yaml", fsStd, yamZero, some cfgStd, true, true, true, true⟩

/-- A fully correct manifest: every declared hash matches fsStd. -/
def ldGood : LaunchData := ⟨1, sha256hex [1], ⟨digStd, digStd, digStd, digStd⟩, []⟩

/-- Unmarshaller returning the fully correct manifest. -/
def yamGood : Bytes → Option LaunchData := fun _ => some ldGood

/-! ## Digest shape lemmas -/

/-- The raw SHA-256 digest always has 32 bytes. -/
theorem digestBytes_length (msg : Bytes) : (Sha256.digestBytes msg).length = 32 := by
  simp [Sha256.digestBytes, Sha256.be4]

/-- Hex encoding yields two characters per byte. -/
theorem hexChars_length (bs : Bytes) : (hexChars bs).length = 2 * bs.length := by
  induction bs with
  | nil => simp [hexChars]
  | cons b rest ih => simp [hexChars, ih]; ring

/-- Every hex SHA-256 digest string has 64 characters. -/
theorem sha256hex_length (msg : Bytes) : (sha256hex msg).length = 64 := by
  show (hexChars (Sha256.digestBytes msg)).length = 64
  rw [hexChars_length, digestBytes_length]

/-! ## Claim theorems -/

/-- C5: for every readable file, hashFile returns the hex SHA-256 of the
raw bytes of the file and no error; the digest has fixed length 64 and is a
function of the contents alone, so two files with identical bytes produce
identical digests, across any two file systems and paths. -/
theorem hashFile_pure_fixed_length (fs fs2 : FS) (p q : String) (c : Bytes)
    (h1 : fs p = some c) (h2 : fs2 q = some c) :
    hashFile fs p = (sha256hex c, none) ∧
    (hashFile fs p).1.length = 64 ∧
    hashFile fs p = hashFile fs2 q := by
  refine ⟨by simp [hashFile, h1], ?_, by simp [hashFile, h1, h2]⟩
  simp [hashFile, h1, sha256hex_length]

/-- Witness for C5 at two concrete file systems holding the same bytes
under different paths. -/
theorem hashFile_pure_fixed_length_witness :
    hashFile fsOrder "fa" = (sha256hex [97], none) ∧
    (hashFile fsOrder "fa").1.length = 64 ∧
    hashFile fsOrder "fa" = hashFile (fun p => if p = "z" then some [97] else none) "z" :=
  hashFile_pure_fixed_length fsOrder (fun p => if p = "z" then some [97] else none)
    "fa" "z" [97] (by decide) (by decide)

/-- C6: when the single file is unreadable, hashFile returns the read error
and the empty string; when either file of a combined hash is unreadable,
hashCodeFiles returns the empty string, never a digest of a prefix, along
with an I/O error naming one of the two files. -/
theorem hashers_error_no_partial (fs : FS) (p c a : String)
    (hp : fs p = none) (hca : fs c = none ∨ fs a = none) :
    hashFile fs p = ("", some (GoErr.ioError p)) ∧
    (hashCodeFiles fs c a).1 = "" ∧
    ∃ e, (hashCodeFiles fs c a).2 = some (GoErr.ioError e) ∧ (e = c ∨ e = a) := by
  refine ⟨by simp [hashFile, hp], ?_, ?_⟩
  · rcases hca with h | h
    · simp [hashCodeFiles, h]
    · cases hc : fs c <;> simp [hashCodeFiles, hc, h]
  · rcases hca with h | h
    · exact ⟨c, by simp [hashCodeFiles, h], Or.inl rfl⟩
    · cases hc : fs c
      · exact ⟨c, by simp [hashCodeFiles, hc], Or.inl rfl⟩
      · exact ⟨a, by simp [hashCodeFiles, hc, h], Or.inr rfl⟩

/-- Witness for C6 on a file system where the ABI file is unreadable but
the code file is readable. -/
theorem hashers_error_no_partial_witness :
    hashFile fsOrder "missing" = ("", some (GoErr.ioError "missing")) ∧
    (hashCodeFiles fsOrder "fa" "gone").1 = "" ∧
    ∃ e, (hashCodeFiles fsOrder "fa" "gone").2 = some (GoErr.ioError e) ∧
      (e = "fa" ∨ e = "gone") :=
  hashers_error_no_partial fsOrder "missing" "fa" "gone" (by decide) (Or.inr (by decide))

/-- C9: whenever loadLaunchFile reports an error, the returned launch data
is nil; no partially validated manifest is ever handed back. -/
theorem loadLaunchFile_nil_on_error (fs : FS) (yam : Bytes → Option LaunchData)
    (fn : String) (cfg : Config)
    (h : (loadLaunchFile fs yam fn cfg).1.2 ≠ none) :
    (loadLaunchFile fs yam fn cfg).1.1 = none := by
  unfold loadLaunchFile at h ⊢
  rcases hr : fs fn with _ | cnt <;> simp [hr] at h ⊢
  rcases hy : yam cnt with _ | out <;> simp [hy] at h ⊢
  by_cases hz : out.launchBitcoinBlockHeight = 0
  · simp [hz]
  · simp [hz] at h ⊢
    rcases hs : hashFile fs cfg.openingBalances.snapshotPath with ⟨d, _ | e⟩ <;>
      simp [hs] at h ⊢
    · by_cases hm : d = out.openingBalancesSnapshotHash
      · simp [hm] at h ⊢
        rcases hc : checkContracts fs (contractList cfg out) with ⟨_ | e, evs⟩ <;>
          simp [hc] at h ⊢
      · simp [hm]

/-- Witness for C9 at a file system where the launch file is unreadable. -/
theorem loadLaunchFile_nil_on_error_witness :
    (loadLaunchFile (fun _ => none) (fun _ => none) "launch.yaml"
      ⟨⟨"s"⟩, ⟨⟨"c", "a"⟩, ⟨"c", "a"⟩, ⟨"c", "a"⟩, ⟨"c", "a"⟩⟩, ⟨"api", "wallet"⟩⟩).1.1
      = none :=
  loadLaunchFile_nil_on_error (fun _ => none) (fun _ => none) "launch.yaml"
    ⟨⟨"s"⟩, ⟨⟨"c", "a"⟩, ⟨"c", "a"⟩, ⟨"c", "a"⟩, ⟨"c", "a"⟩⟩, ⟨"api", "wallet"⟩⟩
    (by decide)

/-- C4 counterexample: two files with differing contents, one holding a
single ":" byte and the other empty, assemble the same delimited byte
string in both orders, so hashing (A, B) and hashing (B, A) return the
same digest even though the contents differ. -/
theorem hashCodeFiles_swap_collision :
    fsColl "fa" ≠ fsColl "fb" ∧
    hashCodeFiles fsColl "fa" "fb" = hashCodeFiles fsColl "fb" "fa" := by
  exact ⟨by decide, by decide⟩

/-- C4 amended: the combined hash is the hex SHA-256 of the first file
bytes, one ":" byte, then the second file bytes, in caller order; the
delimited preimage always differs from the plain concatenation, and on a
representative pair of distinct one-byte files the in-order, swapped and
undelimited digests are pairwise distinct — but distinct contents alone do
not force distinct digests in swapped order. -/
theorem hashCodeFiles_delimited_order (fs : FS) (a b : String) (ca cb : Bytes)
    (ha : fs a = some ca) (hb : fs b = some cb) :
    hashCodeFiles fs a b = (sha256hex (ca ++ [58] ++ cb), none) ∧
    hashCodeFiles fs b a = (sha256hex (cb ++ [58] ++ ca), none) ∧
    ca ++ [58] ++ cb ≠ ca ++ cb ∧
    hashCodeFiles fsOrder "fa" "fb" ≠ hashCodeFiles fsOrder "fb" "fa" ∧
    (hashCodeFiles fsOrder "fa" "fb").1 ≠ sha256hex ([97] ++ [98]) := by
  refine ⟨by simp [hashCodeFiles, ha, hb], by simp [hashCodeFiles, ha, hb], ?_, ?_, ?_⟩
  · intro h
    have hlen := congrArg List.length h
    simp at hlen
  · decide
  · decide

/-- If some listed contract has a successfully computed digest that differs
from its declared hash, the contract loop returns an error. -/
theorem checkContracts_err_of_mismatch (fs : FS) (l : List (String × contractCompare))
    (nc : String × contractCompare) (hmem : nc ∈ l) (d : String)
    (hd : hashCodeFiles fs nc.2.location.codePath nc.2.location.abiPath = (d, none))
    (hne : d ≠ nc.2.hash) :
    ∃ e, (checkContracts fs l).1 = some e := by
  induction l with
  | nil => cases hmem
  | cons pair tl ih =>
    obtain ⟨n0, c0⟩ := pair
    rcases List.mem_cons.mp hmem with heq | hmem0
    · subst heq
      simp only at hd hne
      simp only [checkContracts, hd]
      exact ⟨GoErr.contractMismatch n0, by simp [hne]⟩
    · simp only [checkContracts]
      rcases h0 : hashCodeFiles fs c0.location.codePath c0.location.abiPath with ⟨d0, oe⟩
      cases oe with
      | some e => exact ⟨GoErr.contractHashError n0 e, rfl⟩
      | none =>
        by_cases hm : d0 = c0.hash
        · obtain ⟨e, he⟩ := ih hmem0
          rcases hc : checkContracts fs tl with ⟨r, evs⟩
          rw [hc] at he
          exact ⟨e, by simp [hm, hc]; exact he⟩
        · exact ⟨GoErr.contractMismatch n0, by simp [hm]⟩

/-- If the snapshot digest or any listed contract digest is computed
successfully but differs from the declared value, loadLaunchFile returns a
nil manifest and an error. -/
theorem loadLaunchFile_err_of_mismatch (fs : FS) (yam : Bytes → Option LaunchData)
    (fn : String) (cfg : Config) (cnt : Bytes) (ld : LaunchData)
    (hr : fs fn = some cnt) (hp : yam cnt = some ld)
    (hmis :
      (∃ d, hashFile fs cfg.openingBalances.snapshotPath = (d, none) ∧
            d ≠ ld.openingBalancesSnapshotHash) ∨
      (∃ nc ∈ contractList cfg ld, ∃ d,
            hashCodeFiles fs nc.2.location.codePath nc.2.location.abiPath = (d, none) ∧
            d ≠ nc.2.hash)) :
    ∃ e, (loadLaunchFile fs yam fn cfg).1 = (none, some e) := by
  unfold loadLaunchFile
  simp only [hr, hp]
  by_cases hz : ld.launchBitcoinBlockHeight = 0
  · exact ⟨GoErr.heightZero, by simp [hz]⟩
  · rcases hs : hashFile fs cfg.openingBalances.snapshotPath with ⟨ds, os⟩
    cases os with
    | some e => exact ⟨e, by simp [hz, hs]⟩
    | none =>
      by_cases hm : ds = ld.openingBalancesSnapshotHash
      · rcases hmis with ⟨d, hdf, hdne⟩ | ⟨nc, hncmem, d, hdc, hdne⟩
        · rw [hs] at hdf
          injection hdf with h1 _
          exact absurd (h1 ▸ hm) hdne
        · obtain ⟨e, he⟩ :=
            checkContracts_err_of_mismatch fs (contractList cfg ld) nc hncmem d hdc hdne
          rcases hc : checkContracts fs (contractList cfg ld) with ⟨r, evs⟩
          rw [hc] at he
          subst he
          exact ⟨e, by simp [hz, hs, hm, hc]⟩
      · exact ⟨GoErr.snapshotMismatch, by simp [hz, hs, hm]⟩

/-- When the flags are present, the configuration loads and the launch
loader reports an error, the main trace is exactly the configuration step
followed by the fatal launch-data message. -/
theorem mainRun_eq_of_launch_error (p : MainParams) (cfg : Config)
    (hflag : ¬(p.localConfig = "" ∨ p.launchData = ""))
    (hc : p.configResult = some cfg) (e : GoErr)
    (hl : (loadLaunchFile p.fs p.yamlUnmarshal p.launchData cfg).1.2 = some e) :
    mainRun p = [MainEvent.loadedConfig, MainEvent.fatal "launch data error"] := by
  unfold mainRun
  rw [if_neg hflag, hc]
  rcases hl2 : (loadLaunchFile p.fs p.yamlUnmarshal p.launchData cfg).1 with ⟨od, oe⟩
  rw [hl2] at hl
  simp only at hl
  subst hl
  simp [hl2]

/-- When the launch loader reports an error, main logs a fatal message and
its trace holds no network step and no shuffle step. -/
theorem mainRun_stops_on_launch_error (p : MainParams) (cfg : Config)
    (hc : p.configResult = some cfg)
    (he : ∃ e, (loadLaunchFile p.fs p.yamlUnmarshal p.launchData cfg).1.2 = some e) :
    (∃ msg, MainEvent.fatal msg ∈ mainRun p) ∧
    ∀ ev ∈ mainRun p, isNetworkEvent ev = false ∧ ev ≠ MainEvent.shuffledProducers := by
  obtain ⟨e, he⟩ := he
  by_cases hflag : p.localConfig = "" ∨ p.launchData = ""
  · have htr : mainRun p = [MainEvent.fatal "missing --launch-data or --local-config"] := by
      unfold mainRun
      rw [if_pos hflag]
    rw [htr]
    refine ⟨⟨"missing --launch-data or --local-config", List.mem_singleton_self _⟩, ?_⟩
    intro ev hev
    rw [List.mem_singleton] at hev
    subst hev
    exact ⟨rfl, by simp⟩
  · have htr := mainRun_eq_of_launch_error p cfg hflag hc e he
    rw [htr]
    refine ⟨⟨"launch data error", by simp⟩, ?_⟩
    intro ev hev
    rcases List.mem_cons.mp hev with rfl | hev2
    · exact ⟨rfl, by simp⟩
    · rw [List.mem_singleton] at hev2
      subst hev2
      exact ⟨rfl, by simp⟩

/-- C2: whenever the snapshot digest or any contract digest computes to a
value different from the declared one, loadLaunchFile returns an error,
main logs a fatal message, and the main trace holds no network step — no
client creation, wallet query or BIOS submission — and no producer
shuffle. -/
theorem mismatch_stops_before_network (p : MainParams) (cfg : Config) (cnt : Bytes)
    (ld : LaunchData)
    (hc : p.configResult = some cfg)
    (hr : p.fs p.launchData = some cnt)
    (hp : p.yamlUnmarshal cnt = some ld)
    (hmis :
      (∃ d, hashFile p.fs cfg.openingBalances.snapshotPath = (d, none) ∧
            d ≠ ld.openingBalancesSnapshotHash) ∨
      (∃ nc ∈ contractList cfg ld, ∃ d,
            hashCodeFiles p.fs nc.2.location.codePath nc.2.location.abiPath = (d, none) ∧
            d ≠ nc.2.hash)) :
    (∃ e, (loadLaunchFile p.fs p.yamlUnmarshal p.launchData cfg).1 = (none, some e)) ∧
    (∃ msg, MainEvent.fatal msg ∈ mainRun p) ∧
    ∀ ev ∈ mainRun p, isNetworkEvent ev = false ∧ ev ≠ MainEvent.shuffledProducers := by
  obtain ⟨e, he⟩ :=
    loadLaunchFile_err_of_mismatch p.fs p.yamlUnmarshal p.launchData cfg cnt ld hr hp hmis
  have h2 := mainRun_stops_on_launch_error p cfg hc ⟨e, by rw [he]⟩
  exact ⟨⟨e, he⟩, h2.1, h2.2⟩

/-- Witness for the amended C4 at two concrete one-byte files. -/
theorem hashCodeFiles_delimited_order_witness :
    hashCodeFiles fsOrder "fa" "fb" = (sha256hex ([97] ++ [58] ++ [98]), none) ∧
    hashCodeFiles fsOrder "fb" "fa" = (sha256hex ([98] ++ [58] ++ [97]), none) ∧
    ([97] : Bytes) ++ [58] ++ [98] ≠ [97] ++ [98] ∧
    hashCodeFiles fsOrder "fa" "fb" ≠ hashCodeFiles fsOrder "fb" "fa" ∧
    (hashCodeFiles fsOrder "fa" "fb").1 ≠ sha256hex ([97] ++ [98]) :=
  hashCodeFiles_delimited_order fsOrder "fa" "fb" [97] [98] (by decide) (by decide)

/-- Witness for C2: a run whose declared snapshot hash matches nothing,
with the mismatch discharged by computing the snapshot digest. -/
theorem mismatch_stops_before_network_witness :
    (∃ e, (loadLaunchFile pSnapBad.fs pSnapBad.yamlUnmarshal pSnapBad.launchData cfgStd).1 =
      (none, some e)) ∧
    (∃ msg, MainEvent.fatal msg ∈ mainRun pSnapBad) ∧
    ∀ ev ∈ mainRun pSnapBad, isNetworkEvent ev = false ∧ ev ≠ MainEvent.shuffledProducers :=
  mismatch_stops_before_network pSnapBad cfgStd [0] ldSnapBad rfl (by decide) rfl
    (Or.inl ⟨sha256hex [1], rfl, by decide⟩)

/-- C7: when the unmarshalled manifest carries a zero
launch_btc_block_height — the value a missing field unmarshals to —
loadLaunchFile returns an error with a trace holding only the launch-file
read, so no file is hashed, and the main trace holds no network step. -/
theorem zero_height_aborts (p : MainParams) (cfg : Config) (cnt : Bytes) (ld : LaunchData)
    (hc : p.configResult = some cfg)
    (hr : p.fs p.launchData = some cnt)
    (hp : p.yamlUnmarshal cnt = some ld)
    (hz : ld.launchBitcoinBlockHeight = 0) :
    loadLaunchFile p.fs p.yamlUnmarshal p.launchData cfg =
      ((none, some GoErr.heightZero), [Event.readLaunch p.launchData]) ∧
    ∀ ev ∈ mainRun p, isNetworkEvent ev = false := by
  have h1 : loadLaunchFile p.fs p.yamlUnmarshal p.launchData cfg =
      ((none, some GoErr.heightZero), [Event.readLaunch p.launchData]) := by
    unfold loadLaunchFile
    simp [hr, hp, hz]
  refine ⟨h1, fun ev hev => ?_⟩
  exact ((mainRun_stops_on_launch_error p cfg hc ⟨GoErr.heightZero, by rw [h1]⟩).2 ev hev).1

/-- Witness for C7 at the zero-height scenario. -/
theorem zero_height_aborts_witness :
    loadLaunchFile pZero.fs pZero.yamlUnmarshal pZero.launchData cfgStd =
      ((none, some GoErr.heightZero), [Event.readLaunch pZero.launchData]) ∧
    ∀ ev ∈ mainRun pZero, isNetworkEvent ev = false :=
  zero_height_aborts pZero cfgStd [0] ldZero rfl (by decide) rfl rfl

/-- C10: the loader validates in a fixed order — block height, then the
snapshot digest, then the contracts. With a zero height nothing is hashed
at all, and with a nonzero height and a snapshot digest differing from the
declared value the loader stops at the snapshot comparison: the trace ends
with the snapshot printout and holds no contract read or hash. -/
theorem loadLaunchFile_check_order (fs : FS) (yam : Bytes → Option LaunchData)
    (fn : String) (cfg : Config) (cnt : Bytes) (ld : LaunchData)
    (hr : fs fn = some cnt) (hp : yam cnt = some ld) :
    (ld.launchBitcoinBlockHeight = 0 →
      loadLaunchFile fs yam fn cfg =
        ((none, some GoErr.heightZero), [Event.readLaunch fn])) ∧
    (∀ d, ld.launchBitcoinBlockHeight ≠ 0 →
      hashFile fs cfg.openingBalances.snapshotPath = (d, none) →
      d ≠ ld.openingBalancesSnapshotHash →
      loadLaunchFile fs yam fn cfg =
        ((none, some GoErr.snapshotMismatch),
         [Event.readLaunch fn, Event.hashedSnapshot cfg.openingBalances.snapshotPath,
          Event.printedHash cfg.openingBalances.snapshotPath d])) := by
  constructor
  · intro hz
    unfold loadLaunchFile
    simp [hr, hp, hz]
  · intro d hz hs hm
    unfold loadLaunchFile
    simp [hr, hp, hz, hs, hm]

/-- Witness for C10: the bad-snapshot scenario stops at the snapshot
comparison with no contract event in the trace. -/
theorem loadLaunchFile_check_order_witness :
    loadLaunchFile fsStd yamSnapBad "launch.yaml" cfgStd =
      ((none, some GoErr.snapshotMismatch),
       [Event.readLaunch "launch.yaml", Event.hashedSnapshot "s",
        Event.printedHash "s" (sha256hex [1])]) :=
  (loadLaunchFile_check_order fsStd yamSnapBad "launch.yaml" cfgStd [0] ldSnapBad
    (by decide) rfl).2 (sha256hex [1]) (by decide) rfl (by decide)

/-- C1: in the two-bad-contracts scenario both the bios and the token
digests differ from their declared hashes, yet the loader returns an error
naming only the bios contract — the first entry the loop reaches — and the
trace shows the token contract was never hashed: the failure result does
not name every mismatched contract. -/
theorem first_mismatch_only_reported :
    (hashCodeFiles fsStd "c" "a").1 ≠ ldTwoBad.contractHashes.bios ∧
    (hashCodeFiles fsStd "c" "a").1 ≠ ldTwoBad.contractHashes.token ∧
    (loadLaunchFile fsStd yamTwoBad "launch.yaml" cfgStd).1.2 =
      some (GoErr.contractMismatch "bios") ∧
    Event.hashedContract "token" "c" "a" ∉
      (loadLaunchFile fsStd yamTwoBad "launch.yaml" cfgStd).2 := by
  exact ⟨by decide, by decide, by decide, by decide⟩

/-- Every event the contract loop emits is a contract hash event or a
printed contract digest. -/
theorem checkContracts_events (fs : FS) (l : List (String × contractCompare)) :
    ∀ ev ∈ (checkContracts fs l).2,
      (∃ n c a, ev = Event.hashedContract n c a) ∨
      (∃ c a d, ev = Event.printedContractHash c a d) := by
  induction l with
  | nil => intro ev hev; simp [checkContracts] at hev
  | cons pair tl ih =>
    obtain ⟨n0, c0⟩ := pair
    intro ev hev
    simp only [checkContracts] at hev
    rcases h0 : hashCodeFiles fs c0.location.codePath c0.location.abiPath with ⟨d0, oe⟩
    rw [h0] at hev
    cases oe with
    | some e =>
      simp at hev
      subst hev
      exact Or.inl ⟨n0, _, _, rfl⟩
    | none =>
      by_cases hm : d0 = c0.hash
      · rcases hc : checkContracts fs tl with ⟨r, evs⟩
        simp [hm, hc] at hev
        rcases hev with hev | hev | hev
        · subst hev; exact Or.inl ⟨n0, _, _, rfl⟩
        · subst hev; exact Or.inr ⟨_, _, _, rfl⟩
        · exact ih ev (by rw [hc]; exact hev)
      · simp [hm] at hev
        rcases hev with hev | hev
        · subst hev; exact Or.inl ⟨n0, _, _, rfl⟩
        · subst hev; exact Or.inr ⟨_, _, _, rfl⟩

/-- Whenever the contract loop emitted a hash event for a pair of paths
whose combined digest computes successfully, it also emitted the printed
digest for those paths. -/
theorem checkContracts_prints (fs : FS) (l : List (String × contractCompare)) :
    ∀ n c a d, Event.hashedContract n c a ∈ (checkContracts fs l).2 →
      hashCodeFiles fs c a = (d, none) →
      Event.printedContractHash c a d ∈ (checkContracts fs l).2 := by
  induction l with
  | nil => intro n c a d hmem _; simp [checkContracts] at hmem
  | cons pair tl ih =>
    obtain ⟨n0, c0⟩ := pair
    intro n c a d hmem hd
    simp only [checkContracts] at hmem ⊢
    rcases h0 : hashCodeFiles fs c0.location.codePath c0.location.abiPath with ⟨d0, _ | e⟩
    case mk.none =>
      rw [h0] at hmem
      by_cases hm : d0 = c0.hash
      · simp [hm] at hmem ⊢
        rcases hmem with ⟨_, hc2, ha2⟩ | hmem2
        · subst hc2
          subst ha2
          rw [hd] at h0
          obtain ⟨h1, _⟩ := Prod.mk.injEq .. |>.mp h0
          exact Or.inl ⟨rfl, rfl, h1.trans hm⟩
        · exact Or.inr (ih n c a d hmem2 hd)
      · simp [hm] at hmem ⊢
        obtain ⟨_, hc2, ha2⟩ := hmem
        subst hc2
        subst ha2
        rw [hd] at h0
        obtain ⟨h1, _⟩ := Prod.mk.injEq .. |>.mp h0
        exact ⟨rfl, rfl, h1⟩
    case mk.some =>
      rw [h0] at hmem
      simp at hmem
      obtain ⟨_, hc2, ha2⟩ := hmem
      subst hc2
      subst ha2
      rw [hd] at h0
      simp at h0

/-- C8: every digest the loader actually computes is printed: in every run,
passing or failing, a snapshot hash event whose digest computes
successfully is accompanied in the trace by the printed snapshot digest,
and a contract hash event whose combined digest computes successfully is
accompanied by the printed contract digest. -/
theorem computed_hashes_surfaced (fs : FS) (yam : Bytes → Option LaunchData)
    (fn : String) (cfg : Config) :
    (∀ pa d, Event.hashedSnapshot pa ∈ (loadLaunchFile fs yam fn cfg).2 →
      hashFile fs pa = (d, none) →
      Event.printedHash pa d ∈ (loadLaunchFile fs yam fn cfg).2) ∧
    (∀ n c a d, Event.hashedContract n c a ∈ (loadLaunchFile fs yam fn cfg).2 →
      hashCodeFiles fs c a = (d, none) →
      Event.printedContractHash c a d ∈ (loadLaunchFile fs yam fn cfg).2) := by
  rcases hr : fs fn with _ | cnt
  · have htr : (loadLaunchFile fs yam fn cfg).2 = [Event.readLaunch fn] := by
      unfold loadLaunchFile
      simp [hr]
    rw [htr]
    constructor
    · intro pa d hmem _; simp at hmem
    · intro n c a d hmem _; simp at hmem
  · rcases hy : yam cnt with _ | out
    · have htr : (loadLaunchFile fs yam fn cfg).2 = [Event.readLaunch fn] := by
        unfold loadLaunchFile
        simp [hr, hy]
      rw [htr]
      constructor
      · intro pa d hmem _; simp at hmem
      · intro n c a d hmem _; simp at hmem
    · by_cases hz : out.launchBitcoinBlockHeight = 0
      · have htr : (loadLaunchFile fs yam fn cfg).2 = [Event.readLaunch fn] := by
          unfold loadLaunchFile
          simp [hr, hy, hz]
        rw [htr]
        constructor
        · intro pa d hmem _; simp at hmem
        · intro n c a d hmem _; simp at hmem
      · rcases hs : hashFile fs cfg.openingBalances.snapshotPath with ⟨ds, os⟩
        cases os with
        | some e =>
          have htr : (loadLaunchFile fs yam fn cfg).2 =
              [Event.readLaunch fn,
               Event.hashedSnapshot cfg.openingBalances.snapshotPath] := by
            unfold loadLaunchFile
            simp [hr, hy, hz, hs]
          rw [htr]
          constructor
          · intro pa d hmem hdf
            simp at hmem
            subst hmem
            rw [hs] at hdf
            simp at hdf
          · intro n c a d hmem _
            simp at hmem
        | none =>
          by_cases hm : ds = out.openingBalancesSnapshotHash
          · have htr : (loadLaunchFile fs yam fn cfg).2 =
                [Event.readLaunch fn,
                 Event.hashedSnapshot cfg.openingBalances.snapshotPath,
                 Event.printedHash cfg.openingBalances.snapshotPath ds] ++
                (checkContracts fs (contractList cfg out)).2 := by
              unfold loadLaunchFile
              rcases hc : checkContracts fs (contractList cfg out) with ⟨r, evs⟩
              cases r <;> simp [hr, hy, hz, hs, hm, hc]
            rw [htr]
            constructor
            · intro pa d hmem hdf
              rcases List.mem_append.mp hmem with h1 | h2
              · simp at h1
                subst h1
                rw [hs] at hdf
                obtain ⟨h1, _⟩ := Prod.mk.injEq .. |>.mp hdf
                subst h1
                exact List.mem_append_left _ (by simp)
              · rcases checkContracts_events fs (contractList cfg out) _ h2 with
                  ⟨n2, c2, a2, heq⟩ | ⟨c2, a2, d2, heq⟩ <;> exact absurd heq (by simp)
            · intro n c a d hmem hdc
              rcases List.mem_append.mp hmem with h1 | h2
              · simp at h1
              · exact List.mem_append_right _
                  (checkContracts_prints fs (contractList cfg out) n c a d h2 hdc)
          · have htr : (loadLaunchFile fs yam fn cfg).2 =
                [Event.readLaunch fn,
                 Event.hashedSnapshot cfg.openingBalances.snapshotPath,
                 Event.printedHash cfg.openingBalances.snapshotPath ds] := by
              unfold loadLaunchFile
              simp [hr, hy, hz, hs, hm]
            rw [htr]
            constructor
            · intro pa d hmem hdf
              simp at hmem
              subst hmem
              rw [hs] at hdf
              obtain ⟨h1, _⟩ := Prod.mk.injEq .. |>.mp hdf
              subst h1
              simp
            · intro n c a d hmem _
              simp at hmem

/-- Witness for C8 at a fully successful run: the snapshot digest and the
bios contract digest are both printed. -/
theorem computed_hashes_surfaced_witness :
    Event.printedHash "s" (sha256hex [1]) ∈
      (loadLaunchFile fsStd yamGood "launch.yaml" cfgStd).2 ∧
    Event.printedContractHash "c" "a" digStd ∈
      (loadLaunchFile fsStd yamGood "launch.yaml" cfgStd).2 :=
  ⟨(computed_hashes_surfaced fsStd yamGood "launch.yaml" cfgStd).1 "s" (sha256hex [1])
      (by decide) rfl,
   (computed_hashes_surfaced fsStd yamGood "launch.yaml" cfgStd).2 "bios" "c" "a" digStd
      (by decide) rfl⟩

/-- C3: a manifest naming the producer account alice twice loads
successfully — the Go code only carries a comment where the duplicate
check should be — and the subsequent main run proceeds to create the API
client, a network action. -/
theorem duplicate_accounts_accepted :
    ldDup.producers.map ProducerDef.accountName = ["alice", "alice"] ∧
    (loadLaunchFile fsStd yamDup "launch.yaml" cfgStd).1 = (some ldDup, none) ∧
    MainEvent.createdAPIClient "api" ∈ mainRun pDup := by
  exact ⟨rfl, by decide, by decide⟩

end EosBios
